import Mathlib

/-!
Shallow embedding of the batch file-renamer (sorter.js, renamer.js) and proofs
of the specification's claims about it.

Strings are modelled by Lean `String`; JS numbers occurring as file metadata
(sizes, timestamps) by `Option Int` (`none` = the field is absent/undefined),
with JS `||`-coercion made explicit.  Fallible external primitives (the live
file-existence probe, the rename primitive, the progress callback) are
modelled as `Except`-valued functions supplied as parameters.
-/

/-- JS `x || d` for a numeric field `x` that may be `undefined`:
`0` and `undefined` are falsy. -/
def jsOr (x : Option Int) (d : Int) : Int :=
  match x with
  | none => d
  | some v => if v = 0 then d else v

/-- JS `x || y` where both operands may be `undefined`. -/
def jsOrOpt (x y : Option Int) : Option Int :=
  match x with
  | none => y
  | some v => if v = 0 then y else some v

/-- One file record as produced by the enumeration collaborator
(`getFileMetadata`): current name, size, timestamps, extension and an opaque
handle (modelled as a `Nat`) used only by the rename primitive. -/
structure FileRecord where
  name : String
  size : Option Int
  lastModified : Option Int
  creationTime : Option Int
  extension : String
  handle : Nat
deriving DecidableEq, Repr

/-! ### JS string primitives used by the source -/

/-- The whitespace characters removed by JS `String.prototype.trim`
(the common ones: space, tab, LF, CR, VT, FF, NBSP, BOM). -/
def jsWhitespace (c : Char) : Bool :=
  c = ' ' || c = '\t' || c = '\n' || c = '\r' || c = '\x0b' || c = '\x0c' ||
  c = Char.ofNat 0xA0 || c = Char.ofNat 0xFEFF

/-- JS `trim` on a character list: drop whitespace from both ends. -/
def jsTrimList (l : List Char) : List Char :=
  ((l.dropWhile jsWhitespace).reverse.dropWhile jsWhitespace).reverse

/-- JS `String.prototype.trim`. -/
def jsTrim (s : String) : String :=
  ⟨jsTrimList s.data⟩

/-- JS `String.prototype.padStart(targetLen, c)`. -/
def stringPadStart (s : String) (targetLen : Nat) (c : Char) : String :=
  ⟨List.replicate (targetLen - s.length) c ++ s.data⟩

/-- Replace the first occurrence of `pat` in `s` by `repl`
(JS `String.prototype.replace` with a string pattern), on character lists. -/
def replaceFirstList (s pat repl : List Char) : List Char :=
  match s with
  | [] => if pat.isPrefixOf ([] : List Char) then repl else []
  | c :: rest =>
    if pat.isPrefixOf (c :: rest) then repl ++ (c :: rest).drop pat.length
    else c :: replaceFirstList rest pat repl

/-- JS `s.replace(pat, repl)` (first occurrence only). -/
def replaceFirst (s pat repl : String) : String :=
  ⟨replaceFirstList s.data pat.data repl.data⟩

/-- Number of (possibly overlapping) occurrences of `pat` in `s`
(JS `(s.match(/pat/g) || []).length` for the non-overlapping patterns the
source uses). -/
def countOccList (pat : List Char) : List Char → Nat
  | [] => 0
  | c :: rest =>
    (if pat.isPrefixOf (c :: rest) then 1 else 0) + countOccList pat rest

/-- Occurrence count at the `String` level. -/
def countOcc (s pat : String) : Nat :=
  countOccList pat.data s.data

/-! ### Sorter (sorter.js, `FileSorter.sortFiles`) -/

/-- The `field` component of the static `sortOptions` table. -/
inductive SortField where
  | size
  | creationTime
deriving DecidableEq, Repr

/-- The `order` component of the static `sortOptions` table. -/
inductive SortOrder where
  | asc
  | desc
deriving DecidableEq, Repr

/-- The static `sortOptions` lookup table of `FileSorter`. -/
def sortOptions (sortOption : String) : Option (SortField × SortOrder) :=
  if sortOption = "size-asc" then some (.size, .asc)
  else if sortOption = "size-desc" then some (.size, .desc)
  else if sortOption = "date-asc" then some (.creationTime, .asc)
  else if sortOption = "date-desc" then some (.creationTime, .desc)
  else none

/-- The comparison value extracted from a record by the sort comparator:
`a.size || 0` for the size field, `a.creationTime || a.lastModified || 0`
for the date field. -/
def fieldVal (field : SortField) (f : FileRecord) : Int :=
  match field with
  | .size => jsOr f.size 0
  | .creationTime => jsOr f.creationTime (jsOr f.lastModified 0)

/-- The element ordering induced by the JS comparator
(`valueA - valueB` ascending, `valueB - valueA` descending) under a stable
sort. -/
def sortLe (field : SortField) (order : SortOrder) (a b : FileRecord) : Bool :=
  match order with
  | .asc => decide (fieldVal field a ≤ fieldVal field b)
  | .desc => decide (fieldVal field b ≤ fieldVal field a)

/-- The propositional form of `sortLe`, the ordering a stable JS
`Array.prototype.sort` realises for the source's comparator. -/
def sortRel (field : SortField) (order : SortOrder) (a b : FileRecord) : Prop :=
  sortLe field order a b = true

instance (field : SortField) (order : SortOrder) : DecidableRel (sortRel field order) :=
  fun a b => Bool.decEq (sortLe field order a b) true

/-- `FileSorter.sortFiles(files, sortOption)`.  `none` models a non-array
argument; `.error` models the thrown `Invalid sort option` exception.
JS `Array.prototype.sort` is required to be stable and operates on the
spread copy, so it is modelled by a stable sort (`List.insertionSort`)
under the comparator's ordering. -/
def sortFiles (files : Option (List FileRecord)) (sortOption : String) :
    Except String (List FileRecord) :=
  match files with
  | none => .ok []
  | some fs =>
    if fs.length = 0 then .ok []
    else
      match sortOptions sortOption with
      | none => .error ("Invalid sort option: " ++ sortOption)
      | some (field, order) => .ok (fs.insertionSort (sortRel field order))

/-! ### Pattern validation (renamer.js, `FileRenamer.validatePattern`) -/

/-- Result of pattern / filename validation. -/
structure ValidationResult where
  isValid : Bool
  errors : List String
deriving DecidableEq, Repr

/-- A character matched by the source's invalid-character regex
`[<>:"/\\|?*\x00-\x1f]`. -/
def invalidFileChar (c : Char) : Bool :=
  c = '<' || c = '>' || c = ':' || c = '"' || c = '/' || c = '\\' ||
  c = '|' || c = '?' || c = '*' || decide (c.toNat ≤ 0x1f)

/-- The reserved Windows device names of the source's regex
`^(CON|PRN|AUX|NUL|COM[1-9]|LPT[1-9])$`. -/
def reservedNamesList : List String :=
  ["CON", "PRN", "AUX", "NUL",
   "COM1", "COM2", "COM3", "COM4", "COM5", "COM6", "COM7", "COM8", "COM9",
   "LPT1", "LPT2", "LPT3", "LPT4", "LPT5", "LPT6", "LPT7", "LPT8", "LPT9"]

/-- Case-insensitive full match against the reserved-name alternation. -/
def isReservedName (s : String) : Bool :=
  reservedNamesList.contains ⟨s.data.map Char.toUpper⟩

/-- Whether the first character of `s` is `c` (JS `s.startsWith(c)` for a
one-character argument). -/
def startsWithChar (s : String) (c : Char) : Bool :=
  match s.data with
  | [] => false
  | d :: _ => d = c

/-- Whether the last character of `s` is `c` (JS `s.endsWith(c)` for a
one-character argument). -/
def endsWithChar (s : String) (c : Char) : Bool :=
  match s.data.getLast? with
  | none => false
  | some d => d = c

/-- `FileRenamer.validatePattern(pattern)`: accumulates every violated rule,
except that an empty (or all-whitespace) pattern returns immediately. -/
def validatePattern (pattern : String) : ValidationResult :=
  if pattern = "" || jsTrim pattern = "" then
    { isValid := false, errors := ["Pattern cannot be empty"] }
  else
    let trimmedPattern := jsTrim pattern
    let numberPlaceholders := countOcc trimmedPattern "{number}"
    let errs1 :=
      if numberPlaceholders = 0 then
        ["Pattern must contain exactly one {number} placeholder"]
      else if numberPlaceholders > 1 then
        ["Pattern must contain exactly one {number} placeholder"]
      else []
    let errs2 :=
      if trimmedPattern.data.any invalidFileChar then
        ["Pattern contains invalid characters: < > : \" / \\ | ? * or control characters"]
      else []
    let errs3 :=
      if trimmedPattern.length > 200 then
        ["Pattern is too long (maximum 200 characters)"]
      else []
    let patternWithoutNumber := jsTrim (replaceFirst trimmedPattern "{number}" "")
    let errs4 :=
      if isReservedName patternWithoutNumber then
        ["Pattern cannot use reserved Windows names"]
      else []
    let errs5 :=
      if startsWithChar trimmedPattern '.' || endsWithChar trimmedPattern '.' then
        ["Pattern cannot start or end with a dot"]
      else []
    let errors := errs1 ++ errs2 ++ errs3 ++ errs4 ++ errs5
    { isValid := errors.isEmpty, errors := errors }

/-! ### Name generation (renamer.js, `FileRenamer.generateNewName`) -/

/-- `FileRenamer.generateNewName(pattern, index, padding, extension)`. -/
def generateNewName (pattern : String) (index : Nat) (padding : Nat)
    (extension : String) : String :=
  let paddedNumber := stringPadStart (toString index) padding '0'
  let newName := replaceFirst pattern "{number}" paddedNumber
  if extension ≠ "" && jsTrim extension ≠ "" then newName ++ extension else newName

/-! ### Collision detection and resolution (renamer.js) -/

/-- One collision found by `checkForCollisions`: its `type` field is
`existing` (name already among the input files), `directory` (live folder
probe returned true) or `unknown` (the probe itself errored). -/
structure Collision where
  ctype : String
  fileName : String
  errMsg : Option String
deriving DecidableEq, Repr

/-- `FileRenamer.checkForCollisions(newName, existingFiles)`: collisions
against the input file names, then against the live folder via the external
existence probe `fileExists`; a probe error is conservatively recorded as a
collision of type `unknown`. -/
def checkForCollisions (fileExists : String → Except String Bool)
    (newName : String) (existingFiles : List FileRecord) : List Collision :=
  (existingFiles.filter (fun f => decide (f.name = newName))).map
    (fun _ => ⟨"existing", newName, none⟩)
  ++ match fileExists newName with
     | .ok true => [⟨"directory", newName, none⟩]
     | .ok false => []
     | .error e => [⟨"unknown", newName, some e⟩]

/-- The `hasCollisions` flag of the `checkForCollisions` result. -/
def hasCollisions (fileExists : String → Except String Bool)
    (newName : String) (existingFiles : List FileRecord) : Bool :=
  !(checkForCollisions fileExists newName existingFiles).isEmpty

/-- Result of `FileRenamer.resolveCollision`; `none` models the JS `null`
fields of the unresolved case. -/
structure Resolution where
  resolved : Bool
  newName : Option String
  newIndex : Option Nat
  attempts : Nat
  originalIndex : Nat
  errMsg : Option String
deriving DecidableEq, Repr

/-- The probing `while` loop of `FileRenamer.resolveCollision`, with
`attempts` the number of probes already made and `remaining` the fuel
`maxAttempts - attempts` (so the guard `attempts < maxAttempts` holds
exactly when `remaining` is positive). -/
def resolveCollisionLoop (fileExists : String → Except String Bool)
    (pattern : String) (currentIndex : Nat) (padding : Nat) (extension : String)
    (existingFiles : List FileRecord) (maxAttempts : Nat) :
    Nat → Nat → Resolution
  | _, 0 =>
    { resolved := false, newName := none, newIndex := none,
      attempts := maxAttempts, originalIndex := currentIndex,
      errMsg := some ("Could not resolve collision after " ++
                      toString maxAttempts ++ " attempts") }
  | attempts, remaining + 1 =>
    let newIndex := currentIndex + attempts + 1
    let newName := generateNewName pattern newIndex padding extension
    if hasCollisions fileExists newName existingFiles then
      resolveCollisionLoop fileExists pattern currentIndex padding extension
        existingFiles maxAttempts (attempts + 1) remaining
    else
      { resolved := true, newName := some newName, newIndex := some newIndex,
        attempts := attempts + 1, originalIndex := currentIndex, errMsg := none }

/-- `FileRenamer.resolveCollision(pattern, currentIndex, padding, extension,
existingFiles, maxAttempts)`; the source's default for `maxAttempts` is
1000. -/
def resolveCollision (fileExists : String → Except String Bool)
    (pattern : String) (currentIndex : Nat) (padding : Nat) (extension : String)
    (existingFiles : List FileRecord) (maxAttempts : Nat) : Resolution :=
  resolveCollisionLoop fileExists pattern currentIndex padding extension
    existingFiles maxAttempts 0 maxAttempts

/-! ### Preview generation (renamer.js, `FileRenamer.generatePreview`) -/

/-- One planned rename (the source's preview-data item). -/
structure PreviewEntry where
  originalName : String
  newName : String
  originalIndex : Nat
  actualIndex : Nat
  file : FileRecord
  collisionResolved : Bool
  size : Option Int
  creationTime : Option Int
  extension : String
deriving DecidableEq, Repr

/-- One collision-resolution audit record pushed by `generatePreview`. -/
structure CollisionResolution where
  originalFile : FileRecord
  originalName : String
  originalIndex : Nat
  resolvedName : String
  resolvedIndex : Nat
  attempts : Nat
deriving DecidableEq, Repr

/-- Result of `generatePreview`.  The source's failure returns carry only
`success`, `errors` and `previewData`; the remaining fields are modelled as
empty/zero there. -/
structure PreviewResult where
  success : Bool
  errors : List String
  previewData : List PreviewEntry
  collisionResolutions : List CollisionResolution
  totalFiles : Nat
  pattern : String
  padding : Nat
deriving DecidableEq, Repr

/-- Per-run log entry (`operationLog` item; the wall-clock timestamp is not
modelled). -/
structure LogEntry where
  operation : String
  originalName : String
  newName : String
  status : String
  errMsg : Option String
deriving DecidableEq, Repr

/-- The mutable instance state of `FileRenamer` relevant to the claims:
`this.operationLog` and `this.collisionResolutions`. -/
structure RenamerState where
  operationLog : List LogEntry
  collisionResolutions : List CollisionResolution
deriving DecidableEq, Repr

/-- The loop state of `generatePreview`: the entries built so far, the
`usedNames` set (a list used only through membership), the collision audit
records and the running `currentIndex`. -/
structure PlanState where
  previewData : List PreviewEntry
  usedNames : List String
  collisionResolutions : List CollisionResolution
  currentIndex : Nat
deriving Repr

/-- The first half of one `generatePreview` loop iteration: compute the
candidate name at `st.currentIndex`, and when `rc` (the
`options.resolveCollisions` flag) is set, run the collision check and, on a
collision, `resolveCollision` with the source's default bound 1000.
`Sum.inl` carries `(newName, actualIndex, collisionResolved, updated audit
list)`; `Sum.inr` carries the fatal `Could not resolve naming collision`
error message. -/
def planStep (fileExists : String → Except String Bool) (pattern : String)
    (padding : Nat) (allFiles : List FileRecord) (rc : Bool)
    (file : FileRecord) (st : PlanState) :
    (String × Nat × Bool × List CollisionResolution) ⊕ String :=
  let newName0 := generateNewName pattern st.currentIndex padding file.extension
  if rc then
    if hasCollisions fileExists newName0 allFiles then
      let resolution := resolveCollision fileExists pattern st.currentIndex
        padding file.extension allFiles 1000
      if resolution.resolved then
        Sum.inl (resolution.newName.getD "", resolution.newIndex.getD 0, true,
          st.collisionResolutions ++
            [⟨file, file.name, st.currentIndex, resolution.newName.getD "",
              resolution.newIndex.getD 0, resolution.attempts⟩])
      else
        Sum.inr ("Could not resolve naming collision for \"" ++ file.name ++
                 "\": " ++ resolution.errMsg.getD "")
    else
      Sum.inl (newName0, st.currentIndex, false, st.collisionResolutions)
  else
    Sum.inl (newName0, st.currentIndex, false, st.collisionResolutions)

/-- The `for` loop of `generatePreview` over the remaining files, with `i`
the 0-based position of the current file in the input list.  `allFiles` is
the full input list (the source passes `files` itself to the collision
checks). -/
def previewLoop (fileExists : String → Except String Bool) (pattern : String)
    (padding : Nat) (allFiles : List FileRecord) (rc : Bool) :
    List FileRecord → Nat → PlanState → PreviewResult
  | [], _, st =>
    { success := true, errors := [], previewData := st.previewData,
      collisionResolutions := st.collisionResolutions,
      totalFiles := allFiles.length, pattern := pattern, padding := padding }
  | file :: rest, i, st =>
    match planStep fileExists pattern padding allFiles rc file st with
    | Sum.inr msg =>
      { success := false, errors := [msg], previewData := st.previewData,
        collisionResolutions := [], totalFiles := 0, pattern := "", padding := 0 }
    | Sum.inl (newName1, actualIndex, collisionResolved, crs) =>
      if newName1 ∈ st.usedNames then
        { success := false,
          errors := ["Duplicate name generated: \"" ++ newName1 ++
                     "\" for files \"" ++ file.name ++ "\""],
          previewData := st.previewData, collisionResolutions := [],
          totalFiles := 0, pattern := "", padding := 0 }
      else
        let entry : PreviewEntry :=
          { originalName := file.name, newName := newName1,
            originalIndex := i + 1, actualIndex := actualIndex, file := file,
            collisionResolved := collisionResolved, size := file.size,
            creationTime := jsOrOpt file.creationTime file.lastModified,
            extension := file.extension }
        previewLoop fileExists pattern padding allFiles rc rest (i + 1)
          { previewData := st.previewData ++ [entry],
            usedNames := st.usedNames ++ [newName1],
            collisionResolutions := crs,
            currentIndex := actualIndex + 1 }

/-- `FileRenamer.generatePreview(files, pattern, padding, options)` together
with its effect on the instance state (`this.collisionResolutions` is
overwritten on success; `this.operationLog` is untouched).  `rc` and
`startIndex` are `options.resolveCollisions` and `options.startIndex`
(source defaults `true` and `1`). -/
def generatePreview (st : RenamerState)
    (fileExists : String → Except String Bool) (files : List FileRecord)
    (pattern : String) (padding : Nat) (rc : Bool) (startIndex : Nat) :
    PreviewResult × RenamerState :=
  let patternValidation := validatePattern pattern
  if patternValidation.isValid then
    let r := previewLoop fileExists pattern padding files rc files 0
      { previewData := [], usedNames := [], collisionResolutions := [],
        currentIndex := startIndex }
    if r.success then (r, { st with collisionResolutions := r.collisionResolutions })
    else (r, st)
  else
    ({ success := false, errors := patternValidation.errors, previewData := [],
       collisionResolutions := [], totalFiles := 0, pattern := "", padding := 0 },
     st)

/-! ### Execution (renamer.js, `FileRenamer.executeRenaming`) -/

/-- Item of `OperationResult.successful`. -/
structure SuccessEntry where
  originalName : String
  newName : String
  file : FileRecord
deriving DecidableEq, Repr

/-- Item of `OperationResult.failed`. -/
structure FailedEntry where
  originalName : String
  newName : String
  file : FileRecord
  errMsg : String
deriving DecidableEq, Repr

/-- Result of `executeRenaming` (wall-clock timing fields not modelled). -/
structure OperationResult where
  successful : List SuccessEntry
  failed : List FailedEntry
  totalFiles : Nat
deriving DecidableEq, Repr

/-- The external rename primitive `fileSystemManager.renameFile(handle,
newName)`: returns a boolean or throws an error message. -/
abbrev RenamePrim := Nat → String → Except String Bool

/-- The optional progress callback, which may itself throw. -/
abbrev ProgressCallback := Nat → Nat → String → String → Except String Unit

/-- The body of one iteration of the `executeRenaming` try block: notify
progress (its exception propagates), then invoke the rename primitive; a
`false` return is turned into the thrown `Rename operation returned false`
error. -/
def execAttempt (renamePrim : RenamePrim)
    (progressCallback : Option ProgressCallback) (total : Nat) (i : Nat)
    (item : PreviewEntry) : Except String Unit :=
  match (match progressCallback with
         | some cb => cb (i + 1) total item.originalName item.newName
         | none => Except.ok ()) with
  | .error e => .error e
  | .ok _ =>
    match renamePrim item.file.handle item.newName with
    | .ok true => .ok ()
    | .ok false => .error "Rename operation returned false"
    | .error e => .error e

/-- The `for` loop of `executeRenaming`, accumulating the `successful`,
`failed` and `operationLog` lists. -/
def execLoop (renamePrim : RenamePrim)
    (progressCallback : Option ProgressCallback) (total : Nat) :
    List PreviewEntry → Nat → List SuccessEntry → List FailedEntry →
    List LogEntry → List SuccessEntry × List FailedEntry × List LogEntry
  | [], _, succ, fail, log => (succ, fail, log)
  | item :: rest, i, succ, fail, log =>
    match execAttempt renamePrim progressCallback total i item with
    | .ok _ =>
      execLoop renamePrim progressCallback total rest (i + 1)
        (succ ++ [⟨item.originalName, item.newName, item.file⟩]) fail
        (log ++ [⟨"rename", item.originalName, item.newName, "success", none⟩])
    | .error e =>
      execLoop renamePrim progressCallback total rest (i + 1)
        succ (fail ++ [⟨item.originalName, item.newName, item.file, e⟩])
        (log ++ [⟨"rename", item.originalName, item.newName, "failed", some e⟩])

/-- `FileRenamer.executeRenaming(previewData, progressCallback)` together
with its effect on the instance state: the method resets
`this.operationLog` to `[]` on entry and then appends one entry per
attempt, so the final log holds exactly this run's entries. -/
def executeRenaming (st : RenamerState) (renamePrim : RenamePrim)
    (progressCallback : Option ProgressCallback)
    (previewData : List PreviewEntry) : OperationResult × RenamerState :=
  let out := execLoop renamePrim progressCallback previewData.length
    previewData 0 [] [] []
  ({ successful := out.1, failed := out.2.1, totalFiles := previewData.length },
   { st with operationLog := out.2.2 })

/-- `FileRenamer.clearLogs()`. -/
def clearLogs (st : RenamerState) : RenamerState :=
  { operationLog := [], collisionResolutions := [] }

/-! ### Characterisation of the collision-probing loop -/

/-- When the probing loop succeeds it has made between `attempts + 1` and
`attempts + remaining` probes, the final index is `currentIndex` plus the
probe count, the reported name is the candidate generated at that index and
is collision-free, and every earlier probed offset collided. -/
theorem resolveCollisionLoop_resolved
    (fileExists : String → Except String Bool) (pattern : String)
    (currentIndex padding : Nat) (extension : String)
    (existingFiles : List FileRecord) (maxAttempts : Nat) :
    ∀ (remaining attempts : Nat),
    (resolveCollisionLoop fileExists pattern currentIndex padding extension
      existingFiles maxAttempts attempts remaining).resolved = true →
    attempts + 1 ≤ (resolveCollisionLoop fileExists pattern currentIndex padding
      extension existingFiles maxAttempts attempts remaining).attempts ∧
    (resolveCollisionLoop fileExists pattern currentIndex padding extension
      existingFiles maxAttempts attempts remaining).attempts ≤ attempts + remaining ∧
    (resolveCollisionLoop fileExists pattern currentIndex padding extension
      existingFiles maxAttempts attempts remaining).newIndex =
      some (currentIndex + (resolveCollisionLoop fileExists pattern currentIndex
        padding extension existingFiles maxAttempts attempts remaining).attempts) ∧
    (resolveCollisionLoop fileExists pattern currentIndex padding extension
      existingFiles maxAttempts attempts remaining).newName =
      some (generateNewName pattern (currentIndex + (resolveCollisionLoop fileExists
        pattern currentIndex padding extension existingFiles maxAttempts attempts
        remaining).attempts) padding extension) ∧
    hasCollisions fileExists (generateNewName pattern (currentIndex +
      (resolveCollisionLoop fileExists pattern currentIndex padding extension
        existingFiles maxAttempts attempts remaining).attempts) padding extension)
      existingFiles = false ∧
    (∀ j, attempts < j →
      j < (resolveCollisionLoop fileExists pattern currentIndex padding extension
        existingFiles maxAttempts attempts remaining).attempts →
      hasCollisions fileExists (generateNewName pattern (currentIndex + j) padding
        extension) existingFiles = true) := by
  intro remaining
  induction remaining with
  | zero =>
    intro attempts h
    simp [resolveCollisionLoop] at h
  | succ n ih =>
    intro attempts h
    by_cases hc : hasCollisions fileExists
        (generateNewName pattern (currentIndex + attempts + 1) padding extension)
        existingFiles = true
    · simp only [resolveCollisionLoop, hc, if_true] at h ⊢
      obtain ⟨h1, h2, h3, h4, h5, h6⟩ := ih (attempts + 1) h
      refine ⟨by omega, by omega, h3, h4, h5, ?_⟩
      intro j hj1 hj2
      rcases Nat.eq_or_lt_of_le hj1 with he | hl
      · have : j = attempts + 1 := by omega
        subst this
        exact hc
      · exact h6 j (by omega) hj2
    · simp only [Bool.not_eq_true] at hc
      simp only [resolveCollisionLoop, hc, Bool.false_eq_true, if_false]
      refine ⟨Nat.le_refl _, by omega, rfl, rfl, ?_, ?_⟩
      · have : currentIndex + (attempts + 1) = currentIndex + attempts + 1 := by omega
        rw [this]
        exact hc
      · intro j hj1 hj2
        omega

/-- When the probing loop fails, it reports exactly `maxAttempts` attempts
and null name/index. -/
theorem resolveCollisionLoop_unresolved
    (fileExists : String → Except String Bool) (pattern : String)
    (currentIndex padding : Nat) (extension : String)
    (existingFiles : List FileRecord) (maxAttempts : Nat) :
    ∀ (remaining attempts : Nat),
    (resolveCollisionLoop fileExists pattern currentIndex padding extension
      existingFiles maxAttempts attempts remaining).resolved = false →
    (resolveCollisionLoop fileExists pattern currentIndex padding extension
      existingFiles maxAttempts attempts remaining).attempts = maxAttempts ∧
    (resolveCollisionLoop fileExists pattern currentIndex padding extension
      existingFiles maxAttempts attempts remaining).newName = none ∧
    (resolveCollisionLoop fileExists pattern currentIndex padding extension
      existingFiles maxAttempts attempts remaining).newIndex = none := by
  intro remaining
  induction remaining with
  | zero =>
    intro attempts _
    simp [resolveCollisionLoop]
  | succ n ih =>
    intro attempts h
    by_cases hc : hasCollisions fileExists
        (generateNewName pattern (currentIndex + attempts + 1) padding extension)
        existingFiles = true
    · simp only [resolveCollisionLoop, hc, if_true] at h ⊢
      exact ih (attempts + 1) h
    · simp only [Bool.not_eq_true] at hc
      simp only [resolveCollisionLoop, hc, Bool.false_eq_true, if_false] at h
      simp at h

/-- `resolveCollision` success case: between 1 and `maxAttempts` probes were
made, the reported index is `currentIndex + attempts`, the reported name is
the candidate generated there and is collision-free, and every earlier
offset `1 ≤ j < attempts` collided. -/
theorem resolveCollision_resolved
    (fileExists : String → Except String Bool) (pattern : String)
    (currentIndex padding : Nat) (extension : String)
    (existingFiles : List FileRecord) (maxAttempts : Nat)
    (h : (resolveCollision fileExists pattern currentIndex padding extension
      existingFiles maxAttempts).resolved = true) :
    1 ≤ (resolveCollision fileExists pattern currentIndex padding extension
      existingFiles maxAttempts).attempts ∧
    (resolveCollision fileExists pattern currentIndex padding extension
      existingFiles maxAttempts).attempts ≤ maxAttempts ∧
    (resolveCollision fileExists pattern currentIndex padding extension
      existingFiles maxAttempts).newIndex =
      some (currentIndex + (resolveCollision fileExists pattern currentIndex
        padding extension existingFiles maxAttempts).attempts) ∧
    (resolveCollision fileExists pattern currentIndex padding extension
      existingFiles maxAttempts).newName =
      some (generateNewName pattern (currentIndex + (resolveCollision fileExists
        pattern currentIndex padding extension existingFiles
        maxAttempts).attempts) padding extension) ∧
    hasCollisions fileExists (generateNewName pattern (currentIndex +
      (resolveCollision fileExists pattern currentIndex padding extension
        existingFiles maxAttempts).attempts) padding extension)
      existingFiles = false ∧
    (∀ j, 1 ≤ j →
      j < (resolveCollision fileExists pattern currentIndex padding extension
        existingFiles maxAttempts).attempts →
      hasCollisions fileExists (generateNewName pattern (currentIndex + j)
        padding extension) existingFiles = true) := by
  have := resolveCollisionLoop_resolved fileExists pattern currentIndex padding
    extension existingFiles maxAttempts maxAttempts 0 h
  simp only [resolveCollision] at *
  obtain ⟨h1, h2, h3, h4, h5, h6⟩ := this
  exact ⟨h1, by omega, h3, h4, h5, fun j hj1 hj2 => h6 j (by omega) hj2⟩

/-- `resolveCollision` failure case: exactly `maxAttempts` attempts are
reported, with null name and index. -/
theorem resolveCollision_unresolved
    (fileExists : String → Except String Bool) (pattern : String)
    (currentIndex padding : Nat) (extension : String)
    (existingFiles : List FileRecord) (maxAttempts : Nat)
    (h : (resolveCollision fileExists pattern currentIndex padding extension
      existingFiles maxAttempts).resolved = false) :
    (resolveCollision fileExists pattern currentIndex padding extension
      existingFiles maxAttempts).attempts = maxAttempts ∧
    (resolveCollision fileExists pattern currentIndex padding extension
      existingFiles maxAttempts).newName = none ∧
    (resolveCollision fileExists pattern currentIndex padding extension
      existingFiles maxAttempts).newIndex = none :=
  resolveCollisionLoop_unresolved fileExists pattern currentIndex padding
    extension existingFiles maxAttempts maxAttempts 0 h

/-- A successful `planStep` yields a name generated at the reported actual
index (with the current file's extension) and an actual index at least the
running `currentIndex`. -/

theorem planStep_inl
    (fileExists : String → Except String Bool) (pattern : String)
    (padding : Nat) (allFiles : List FileRecord) (rc : Bool)
    (file : FileRecord) (st : PlanState) (n : String) (ix : Nat) (cr : Bool)
    (crs : List CollisionResolution)
    (h : planStep fileExists pattern padding allFiles rc file st =
      Sum.inl (n, ix, cr, crs)) :
    n = generateNewName pattern ix padding file.extension ∧
    st.currentIndex ≤ ix := by
  simp only [planStep] at h
  split at h
  · split at h
    · split at h
      · rename_i hres
        obtain ⟨h1, _, h3, h4, _, _⟩ := resolveCollision_resolved fileExists
          pattern st.currentIndex padding file.extension allFiles 1000 hres
        simp only [Sum.inl.injEq, Prod.mk.injEq] at h
        obtain ⟨hn, hix, -, -⟩ := h
        rw [← hn, ← hix, h3, h4]
        simp only [Option.getD_some]
        exact ⟨trivial, by omega⟩
      · exact absurd h (by simp)
    · simp only [Sum.inl.injEq, Prod.mk.injEq] at h
      obtain ⟨hn, hix, -, -⟩ := h
      rw [← hn, ← hix]
      exact ⟨rfl, Nat.le_refl _⟩
  · simp only [Sum.inl.injEq, Prod.mk.injEq] at h
    obtain ⟨hn, hix, -, -⟩ := h
    rw [← hn, ← hix]
    exact ⟨rfl, Nat.le_refl _⟩

theorem planStep_inr
    (fileExists : String → Except String Bool) (pattern : String)
    (padding : Nat) (allFiles : List FileRecord) (rc : Bool)
    (file : FileRecord) (st : PlanState) (msg : String)
    (h : planStep fileExists pattern padding allFiles rc file st = Sum.inr msg) :
    ∃ s₁ s₂, msg = s₁ ++ file.name ++ s₂ := by
  simp only [planStep] at h
  split at h
  · split at h
    · split at h
      · exact absurd h (by simp)
      · simp only [Sum.inr.injEq] at h
        refine ⟨"Could not resolve naming collision for \"",
          "\": " ++ (resolveCollision fileExists pattern st.currentIndex padding
            file.extension allFiles 1000).errMsg.getD "", ?_⟩
        rw [← h]
        simp only [String.append_assoc]
    · exact absurd h (by simp)
  · exact absurd h (by simp)

/-- Invariant of the `generatePreview` loop on success: it appends exactly
one entry per remaining file; the new entries carry pairwise-distinct new
names, none of which was in `usedNames`; actual indices start at the running
`currentIndex` and strictly increase; `originalIndex` is the 1-based list
position; and every entry's `newName` is the candidate generated at its
`actualIndex` with its extension. -/
theorem previewLoop_success_spec
    (fileExists : String → Except String Bool) (pattern : String)
    (padding : Nat) (allFiles : List FileRecord) (rc : Bool) :
    ∀ (rest : List FileRecord) (i : Nat) (st : PlanState),
    (previewLoop fileExists pattern padding allFiles rc rest i st).success = true →
    ∃ ne : List PreviewEntry,
      (previewLoop fileExists pattern padding allFiles rc rest i st).previewData =
        st.previewData ++ ne ∧
      ne.length = rest.length ∧
      (ne.map (fun e => e.newName)).Nodup ∧
      (∀ n ∈ ne.map (fun e => e.newName), n ∉ st.usedNames) ∧
      (∀ e ∈ ne, st.currentIndex ≤ e.actualIndex) ∧
      ne.Pairwise (fun a b => a.actualIndex < b.actualIndex) ∧
      (∀ k (hk : k < ne.length), (ne.get ⟨k, hk⟩).originalIndex = i + k + 1) ∧
      (∀ e ∈ ne, e.newName = generateNewName pattern e.actualIndex padding e.extension) := by
  intro rest
  induction rest with
  | nil =>
    intro i st h
    exact ⟨[], by simp [previewLoop], by simp, by simp, by simp, by simp,
      by simp, by simp, by simp⟩
  | cons file rest ih =>
    intro i st h
    cases hstep : planStep fileExists pattern padding allFiles rc file st with
    | inr msg =>
      simp only [previewLoop] at h
      rw [hstep] at h
      simp at h
    | inl q =>
      obtain ⟨n, ix, cr, crs⟩ := q
      obtain ⟨hgenn, hle⟩ := planStep_inl fileExists pattern padding allFiles rc
        file st n ix cr crs hstep
      simp only [previewLoop] at h ⊢
      rw [hstep] at h ⊢
      by_cases hdup : n ∈ st.usedNames
      · simp only [if_pos hdup] at h
        simp at h
      · simp only [if_neg hdup] at h ⊢
        obtain ⟨ne', hpd, hlen, hnd, hnot, hge, hpair, horig, hgen⟩ :=
          ih (i + 1) _ h
        refine ⟨(⟨file.name, n, i + 1, ix, file, cr, file.size,
          jsOrOpt file.creationTime file.lastModified, file.extension⟩ :
            PreviewEntry) :: ne', ?_, ?_, ?_, ?_, ?_, ?_, ?_, ?_⟩
        · rw [hpd]
          simp
        · simp [hlen]
        · simp only [List.map_cons, List.nodup_cons]
          refine ⟨?_, hnd⟩
          intro hmem
          exact hnot n hmem (by simp)
        · intro m hm
          simp only [List.map_cons, List.mem_cons] at hm
          rcases hm with rfl | hm
          · exact hdup
          · intro hin
            exact hnot m hm (by simp [hin])
        · intro e he
          rcases List.mem_cons.mp he with rfl | he
          · exact hle
          · have := hge e he
            simp only at this
            omega
        · refine List.pairwise_cons.mpr ⟨?_, hpair⟩
          intro e he
          have := hge e he
          simp only at this
          show ix < e.actualIndex
          omega
        · intro k hk
          match k with
          | 0 => simp
          | k + 1 =>
            simp only [List.get_cons_succ]
            have := horig k (by simpa using hk)
            omega
        · intro e he
          rcases List.mem_cons.mp he with rfl | he
          · simpa using hgenn
          · exact hgen e he

/-- On failure the `generatePreview` loop reports a single error message
that embeds the offending file's original name. -/
theorem previewLoop_failure_spec
    (fileExists : String → Except String Bool) (pattern : String)
    (padding : Nat) (allFiles : List FileRecord) (rc : Bool) :
    ∀ (rest : List FileRecord) (i : Nat) (st : PlanState),
    (previewLoop fileExists pattern padding allFiles rc rest i st).success = false →
    ∃ f ∈ rest, ∃ s₁ s₂,
      (previewLoop fileExists pattern padding allFiles rc rest i st).errors =
        [s₁ ++ f.name ++ s₂] := by
  intro rest
  induction rest with
  | nil =>
    intro i st h
    simp [previewLoop] at h
  | cons file rest ih =>
    intro i st h
    cases hstep : planStep fileExists pattern padding allFiles rc file st with
    | inr msg =>
      obtain ⟨s₁, s₂, hmsg⟩ := planStep_inr fileExists pattern padding allFiles
        rc file st msg hstep
      simp only [previewLoop] at h ⊢
      rw [hstep] at h ⊢
      exact ⟨file, by simp, s₁, s₂, by rw [← hmsg]⟩
    | inl q =>
      obtain ⟨n, ix, cr, crs⟩ := q
      simp only [previewLoop] at h ⊢
      rw [hstep] at h ⊢
      by_cases hdup : n ∈ st.usedNames
      · simp only [if_pos hdup] at h ⊢
        exact ⟨file, by simp,
          "Duplicate name generated: \"" ++ n ++ "\" for files \"", "\"", rfl⟩
      · simp only [if_neg hdup] at h ⊢
        obtain ⟨f, hf, s₁, s₂, herr⟩ := ih (i + 1) _ h
        exact ⟨f, by simp [hf], s₁, s₂, herr⟩

/-- When the pattern validates, `generatePreview` returns the loop's result
started at position 0 with empty accumulators and `currentIndex =
startIndex`. -/
theorem generatePreview_fst
    (st : RenamerState) (fileExists : String → Except String Bool)
    (files : List FileRecord) (pattern : String) (padding : Nat) (rc : Bool)
    (startIndex : Nat) (hv : (validatePattern pattern).isValid = true) :
    (generatePreview st fileExists files pattern padding rc startIndex).fst =
      previewLoop fileExists pattern padding files rc files 0
        ⟨[], [], [], startIndex⟩ := by
  simp only [generatePreview, hv, if_true]
  split <;> rfl

/-- When the pattern does not validate, `generatePreview` fails with the
validator's errors. -/
theorem generatePreview_fst_invalid
    (st : RenamerState) (fileExists : String → Except String Bool)
    (files : List FileRecord) (pattern : String) (padding : Nat) (rc : Bool)
    (startIndex : Nat) (hv : (validatePattern pattern).isValid = false) :
    (generatePreview st fileExists files pattern padding rc startIndex).fst =
      ⟨false, (validatePattern pattern).errors, [], [], 0, "", 0⟩ := by
  simp [generatePreview, hv]

/-! ### Facts about the JS string primitives -/

/-- A list that exhibits `pat` as a factor contains at least one occurrence
of a non-empty `pat`. -/
theorem countOccList_pos (pat p₁ p₂ : List Char) (hne : pat ≠ []) :
    1 ≤ countOccList pat (p₁ ++ (pat ++ p₂)) := by
  induction p₁ with
  | nil =>
    simp only [List.nil_append]
    cases pat with
    | nil => exact absurd rfl hne
    | cons c pr =>
      rw [List.cons_append, countOccList]
      have hpre : List.isPrefixOf (c :: pr) (c :: (pr ++ p₂)) = true := by
        rw [List.isPrefixOf_iff_prefix, ← List.cons_append]
        exact List.prefix_append _ _
      simp only [hpre, if_true]
      omega
  | cons c p₁ ih =>
    rw [List.cons_append, countOccList]
    exact Nat.le_trans ih (Nat.le_add_left _ _)

/-- Replacing the first occurrence in a list with exactly one occurrence of
the non-empty pattern splices the replacement in at the occurrence. -/
theorem replaceFirstList_splice (pat p₁ p₂ repl : List Char) (hne : pat ≠ [])
    (hcount : countOccList pat (p₁ ++ (pat ++ p₂)) = 1) :
    replaceFirstList (p₁ ++ (pat ++ p₂)) pat repl = p₁ ++ (repl ++ p₂) := by
  induction p₁ with
  | nil =>
    simp only [List.nil_append]
    cases pat with
    | nil => exact absurd rfl hne
    | cons c pr =>
      rw [List.cons_append, replaceFirstList]
      have hpre : List.isPrefixOf (c :: pr) (c :: (pr ++ p₂)) = true := by
        rw [List.isPrefixOf_iff_prefix, ← List.cons_append]
        exact List.prefix_append _ _
      simp only [hpre, if_true, List.length_cons, List.drop_succ_cons]
      rw [List.drop_left]
  | cons c p₁ ih =>
    by_cases hpre : List.isPrefixOf pat (c :: (p₁ ++ (pat ++ p₂))) = true
    · exfalso
      rw [List.cons_append, countOccList, hpre] at hcount
      have := countOccList_pos pat p₁ p₂ hne
      simp only [if_true] at hcount
      omega
    · simp only [Bool.not_eq_true] at hpre
      rw [List.cons_append, countOccList, hpre] at hcount
      rw [List.cons_append, replaceFirstList, hpre]
      simp only [Bool.false_eq_true, if_false, List.cons_append] at hcount ⊢
      rw [ih (by omega)]

/-- String-level splice: if `pat` is non-empty and occurs exactly once in
`p₁ ++ pat ++ p₂`, JS `replace` substitutes it in place. -/
theorem replaceFirst_splice (p₁ pat p₂ repl : String) (hne : pat ≠ "")
    (hcount : countOcc (p₁ ++ pat ++ p₂) pat = 1) :
    replaceFirst (p₁ ++ pat ++ p₂) pat repl = p₁ ++ repl ++ p₂ := by
  have hne' : pat.data ≠ [] := by
    intro hd
    exact hne (String.ext hd)
  have hdata : (p₁ ++ pat ++ p₂).data = p₁.data ++ (pat.data ++ p₂.data) := by
    simp [String.data_append, List.append_assoc]
  have hcount' : countOccList pat.data (p₁.data ++ (pat.data ++ p₂.data)) = 1 := by
    rw [countOcc] at hcount
    rw [hdata] at hcount
    exact hcount
  apply String.ext
  show replaceFirstList (p₁ ++ pat ++ p₂).data pat.data repl.data =
    (p₁ ++ repl ++ p₂).data
  rw [hdata, replaceFirstList_splice pat.data p₁.data p₂.data repl.data hne' hcount']
  simp [String.data_append, List.append_assoc]

/-- `dropWhile` keeps an element violating the predicate when one exists. -/
theorem exists_mem_dropWhile (p : Char → Bool) (l : List Char)
    (h : ∃ c ∈ l, p c = false) : ∃ c ∈ l.dropWhile p, p c = false := by
  induction l with
  | nil => simp at h
  | cons a l ih =>
    by_cases hp : p a = true
    · rw [List.dropWhile_cons_of_pos hp]
      apply ih
      obtain ⟨c, hc, hpc⟩ := h
      rcases List.mem_cons.mp hc with rfl | hc
      · rw [hp] at hpc
        simp at hpc
      · exact ⟨c, hc, hpc⟩
    · simp only [Bool.not_eq_true] at hp
      rw [List.dropWhile_cons_of_neg (by simp [hp])]
      exact ⟨a, List.mem_cons_self a l, hp⟩

/-- JS `trim` of a string with a non-whitespace character is non-empty. -/
theorem jsTrim_ne_empty (s : String)
    (h : ∃ c ∈ s.data, jsWhitespace c = false) : jsTrim s ≠ "" := by
  intro heq
  have hdata : jsTrimList s.data = [] := congrArg String.data heq
  unfold jsTrimList at hdata
  obtain ⟨c, hc, hpc⟩ := exists_mem_dropWhile jsWhitespace s.data h
  obtain ⟨d, hd, hpd⟩ := exists_mem_dropWhile jsWhitespace
    (List.dropWhile jsWhitespace s.data).reverse
    ⟨c, List.mem_reverse.mpr hc, hpc⟩
  rw [List.reverse_eq_nil_iff] at hdata
  rw [hdata] at hd
  exact absurd hd (List.not_mem_nil d)

/-- With padding 0 `padStart` adds no leading zeros. -/
theorem stringPadStart_zero (s : String) (c : Char) :
    stringPadStart s 0 c = s := by
  apply String.ext
  show List.replicate (0 - s.length) c ++ s.data = s.data
  simp

/-- `generateNewName` on a pattern with a unique `placeholder` occurrence
splices the padded index in place and appends a dot-led extension exactly
when it is non-empty. -/
theorem generateNewName_splice (p₁ p₂ : String) (index padding : Nat)
    (ext : String)
    (hcount : countOcc (p₁ ++ "{number}" ++ p₂) "{number}" = 1)
    (hext : ext = "" ∨ ∃ r, ext = "." ++ r) :
    generateNewName (p₁ ++ "{number}" ++ p₂) index padding ext =
      p₁ ++ stringPadStart (toString index) padding '0' ++ p₂ ++
        (if ext = "" then "" else ext) := by
  simp only [generateNewName]
  rw [replaceFirst_splice p₁ "{number}" p₂ _ (by decide) hcount]
  rcases hext with rfl | ⟨r, rfl⟩
  · simp
  · have h1 : ("." ++ r) ≠ "" := by
      intro h
      have h' := congrArg String.data h
      simp [String.data_append] at h'
    have h2 : jsTrim ("." ++ r) ≠ "" := by
      apply jsTrim_ne_empty
      refine ⟨'.', ?_, by decide⟩
      simp [String.data_append]
    simp [h1, h2]

/-! ### Facts about the execution loop -/

/-- The execution loop only appends: it adds one success-or-failure record
and exactly one log entry per entry, in the given order. -/
theorem execLoop_spec (renamePrim : RenamePrim)
    (cb : Option ProgressCallback) (total : Nat) :
    ∀ (rest : List PreviewEntry) (i : Nat) (succ : List SuccessEntry)
      (fail : List FailedEntry) (log : List LogEntry),
    ∃ ns nf nl,
      (execLoop renamePrim cb total rest i succ fail log).1 = succ ++ ns ∧
      (execLoop renamePrim cb total rest i succ fail log).2.1 = fail ++ nf ∧
      (execLoop renamePrim cb total rest i succ fail log).2.2 = log ++ nl ∧
      ns.length + nf.length = rest.length ∧
      List.Sublist (ns.map (fun e => e.originalName))
        (rest.map (fun e => e.originalName)) ∧
      List.Sublist (nf.map (fun e => e.originalName))
        (rest.map (fun e => e.originalName)) ∧
      nl.map (fun e => e.originalName) = rest.map (fun e => e.originalName) := by
  intro rest
  induction rest with
  | nil =>
    intro i succ fail log
    exact ⟨[], [], [], by simp [execLoop], by simp [execLoop], by simp [execLoop],
      by simp, by simp, by simp, by simp⟩
  | cons item rest ih =>
    intro i succ fail log
    cases hatt : execAttempt renamePrim cb total i item with
    | ok u =>
      obtain ⟨ns, nf, nl, h1, h2, h3, h4, h5, h6, h7⟩ := ih (i + 1)
        (succ ++ [⟨item.originalName, item.newName, item.file⟩]) fail
        (log ++ [⟨"rename", item.originalName, item.newName, "success", none⟩])
      refine ⟨⟨item.originalName, item.newName, item.file⟩ :: ns, nf,
        ⟨"rename", item.originalName, item.newName, "success", none⟩ :: nl,
        ?_, ?_, ?_, ?_, ?_, ?_, ?_⟩
      · rw [execLoop, hatt]
        rw [h1]
        simp
      · rw [execLoop, hatt]
        exact h2
      · rw [execLoop, hatt]
        rw [h3]
        simp
      · simp
        omega
      · simpa using List.Sublist.cons₂ item.originalName h5
      · exact List.Sublist.cons item.originalName h6
      · simp [h7]
    | error e =>
      obtain ⟨ns, nf, nl, h1, h2, h3, h4, h5, h6, h7⟩ := ih (i + 1) succ
        (fail ++ [⟨item.originalName, item.newName, item.file, e⟩])
        (log ++ [⟨"rename", item.originalName, item.newName, "failed", some e⟩])
      refine ⟨ns, ⟨item.originalName, item.newName, item.file, e⟩ :: nf,
        ⟨"rename", item.originalName, item.newName, "failed", some e⟩ :: nl,
        ?_, ?_, ?_, ?_, ?_, ?_, ?_⟩
      · rw [execLoop, hatt]
        exact h1
      · rw [execLoop, hatt]
        rw [h2]
        simp
      · rw [execLoop, hatt]
        rw [h3]
        simp
      · simp
        omega
      · exact List.Sublist.cons item.originalName h5
      · simpa using List.Sublist.cons₂ item.originalName h6
      · simp [h7]

/-- If the attempt for the `k`-th remaining entry fails with `msg`, the
corresponding failure record (with that message) is in the final `failed`
list. -/
theorem execLoop_mem_failed (renamePrim : RenamePrim)
    (cb : Option ProgressCallback) (total : Nat) :
    ∀ (rest : List PreviewEntry) (i : Nat) (succ : List SuccessEntry)
      (fail : List FailedEntry) (log : List LogEntry)
      (k : Nat) (hk : k < rest.length) (msg : String),
    execAttempt renamePrim cb total (i + k) (rest.get ⟨k, hk⟩) = .error msg →
    (⟨(rest.get ⟨k, hk⟩).originalName, (rest.get ⟨k, hk⟩).newName,
      (rest.get ⟨k, hk⟩).file, msg⟩ : FailedEntry) ∈
      (execLoop renamePrim cb total rest i succ fail log).2.1 := by
  intro rest
  induction rest with
  | nil =>
    intro i succ fail log k hk
    simp at hk
  | cons item rest ih =>
    intro i succ fail log k hk msg hm
    cases k with
    | zero =>
      simp only [List.get] at hm ⊢
      rw [Nat.add_zero] at hm
      rw [execLoop, hm]
      obtain ⟨ns, nf, nl, h1, h2, h3, h4, h5, h6, h7⟩ :=
        execLoop_spec renamePrim cb total rest (i + 1) succ
          (fail ++ [⟨item.originalName, item.newName, item.file, msg⟩])
          (log ++ [⟨"rename", item.originalName, item.newName, "failed", some msg⟩])
      rw [h2]
      refine List.mem_append_left _ (List.mem_append_right _ ?_)
      simp
    | succ k =>
      have hm' : execAttempt renamePrim cb total ((i + 1) + k)
          (rest.get ⟨k, by simpa using hk⟩) = .error msg := by
        rw [show (i + 1) + k = i + (k + 1) by omega]
        simpa using hm
      cases hatt : execAttempt renamePrim cb total i item with
      | ok u =>
        rw [execLoop, hatt]
        simpa using ih (i + 1) _ _ _ k (by simpa using hk) msg hm'
      | error e =>
        rw [execLoop, hatt]
        simpa using ih (i + 1) _ _ _ k (by simpa using hk) msg hm'

/-- The execution loop's result does not depend on the rename primitive's
behaviour at entries whose progress notification throws: if two primitives
agree on every entry whose notification succeeds, the loops agree. -/
theorem execLoop_cb_agree (cb : ProgressCallback) (total : Nat) :
    ∀ (rest : List PreviewEntry) (i : Nat) (succ : List SuccessEntry)
      (fail : List FailedEntry) (log : List LogEntry)
      (prim₁ prim₂ : RenamePrim),
    (∀ (k : Nat) (hk : k < rest.length),
      cb (i + k + 1) total ((rest.get ⟨k, hk⟩).originalName)
        ((rest.get ⟨k, hk⟩).newName) = .ok () →
      prim₁ ((rest.get ⟨k, hk⟩).file.handle) ((rest.get ⟨k, hk⟩).newName) =
        prim₂ ((rest.get ⟨k, hk⟩).file.handle) ((rest.get ⟨k, hk⟩).newName)) →
    execLoop prim₁ (some cb) total rest i succ fail log =
      execLoop prim₂ (some cb) total rest i succ fail log := by
  intro rest
  induction rest with
  | nil =>
    intro i succ fail log prim₁ prim₂ _
    rfl
  | cons item rest ih =>
    intro i succ fail log prim₁ prim₂ hagree
    have htail : ∀ (k : Nat) (hk : k < rest.length),
        cb ((i + 1) + k + 1) total ((rest.get ⟨k, hk⟩).originalName)
          ((rest.get ⟨k, hk⟩).newName) = .ok () →
        prim₁ ((rest.get ⟨k, hk⟩).file.handle) ((rest.get ⟨k, hk⟩).newName) =
          prim₂ ((rest.get ⟨k, hk⟩).file.handle) ((rest.get ⟨k, hk⟩).newName) := by
      intro k hk hcb
      have := hagree (k + 1) (by simpa using hk)
      rw [show i + (k + 1) + 1 = (i + 1) + k + 1 by omega] at this
      simp only [List.get_cons_succ] at this
      exact this hcb
    cases hcb : cb (i + 1) total item.originalName item.newName with
    | error e =>
      have hatt₁ : execAttempt prim₁ (some cb) total i item = .error e := by
        simp [execAttempt, hcb]
      have hatt₂ : execAttempt prim₂ (some cb) total i item = .error e := by
        simp [execAttempt, hcb]
      rw [execLoop, hatt₁, execLoop, hatt₂]
      exact ih (i + 1) _ _ _ prim₁ prim₂ htail
    | ok u =>
      have hprim : prim₁ item.file.handle item.newName =
          prim₂ item.file.handle item.newName := by
        have := hagree 0 (by simp)
        simp only [List.get, Nat.add_zero] at this
        exact this hcb
      have hatt : execAttempt prim₁ (some cb) total i item =
          execAttempt prim₂ (some cb) total i item := by
        simp only [execAttempt, hcb, hprim]
      cases hatt₂ : execAttempt prim₂ (some cb) total i item with
      | ok v =>
        rw [execLoop, hatt.trans hatt₂, execLoop, hatt₂]
        exact ih (i + 1) _ _ _ prim₁ prim₂ htail
      | error e =>
        rw [execLoop, hatt.trans hatt₂, execLoop, hatt₂]
        exact ih (i + 1) _ _ _ prim₁ prim₂ htail

/-! ### Concrete records used in the examples -/

/-- Spec Example 1 record `a.jpg(size=10)`. -/
def exFileA : FileRecord := ⟨"a.jpg", some 10, some 100, some 100, ".jpg", 1⟩

/-- Spec Example 1 record `b.png(size=5)`. -/
def exFileB : FileRecord := ⟨"b.png", some 5, some 200, some 200, ".png", 2⟩

/-- Live-folder probe for Example 1: only the two input files exist. -/
def exFolder : String → Except String Bool :=
  fun s => .ok (decide (s = "a.jpg" ∨ s = "b.png"))

/-- A file whose first candidate name collides (see `colFolder`). -/
def colFileX : FileRecord := ⟨"x", none, none, none, "", 1⟩

/-- A second file processed after the collision of `colFileX`. -/
def colFileY : FileRecord := ⟨"y", none, none, none, "", 2⟩

/-- Live-folder probe where exactly the name `f1` already exists. -/
def colFolder : String → Except String Bool :=
  fun s => .ok (decide (s = "f1"))

/-! ### Claim theorems -/

/-- C3: for every non-empty file list and valid sort key, `sortFiles`
returns (without error) a permutation of the input that is sorted under the
key's comparator ordering and stable: records with equal comparison value
keep their relative input order (their filtered subsequences coincide).
The model is a pure function, so the input sequence is unchanged by
construction. -/
theorem sortFiles_perm_sorted_stable (files : List FileRecord) (key : String)
    (field : SortField) (order : SortOrder) (hne : files ≠ [])
    (hkey : sortOptions key = some (field, order)) :
    ∃ sorted : List FileRecord,
      sortFiles (some files) key = .ok sorted ∧
      sorted.Perm files ∧
      sorted.Pairwise (sortRel field order) ∧
      (∀ v : Int, sorted.filter (fun f => decide (fieldVal field f = v)) =
        files.filter (fun f => decide (fieldVal field f = v))) := by
  haveI : IsTotal FileRecord (sortRel field order) := ⟨by
    intro a b
    cases order <;> simp [sortRel, sortLe] <;> exact Int.le_total _ _⟩
  haveI : IsTrans FileRecord (sortRel field order) := ⟨by
    intro a b c hab hbc
    cases order <;> simp [sortRel, sortLe] at hab hbc ⊢ <;> omega⟩
  refine ⟨files.insertionSort (sortRel field order), ?_, ?_, ?_, ?_⟩
  · have h0 : ¬ files.length = 0 := by
      simpa [List.length_eq_zero] using hne
    simp [sortFiles, h0, hkey]
  · exact List.perm_insertionSort _ files
  · exact List.sorted_insertionSort _ files
  · intro v
    have hpair : (files.filter (fun f => decide (fieldVal field f = v))).Pairwise
        (sortRel field order) := by
      apply List.pairwise_of_forall_mem_list
      intro a ha b hb
      have ha' := (List.mem_filter.mp ha).2
      have hb' := (List.mem_filter.mp hb).2
      simp only [decide_eq_true_eq] at ha' hb'
      cases order <;> simp [sortRel, sortLe, ha', hb']
    have h1 : List.Sublist (files.filter (fun f => decide (fieldVal field f = v)))
        ((files.insertionSort (sortRel field order)).filter
          (fun f => decide (fieldVal field f = v))) := by
      have hs := List.sublist_insertionSort hpair (List.filter_sublist files)
      have h' := hs.filter (fun f => decide (fieldVal field f = v))
      rwa [List.filter_eq_self.mpr (fun a ha => (List.mem_filter.mp ha).2)] at h'
    have h2 : ((files.insertionSort (sortRel field order)).filter
        (fun f => decide (fieldVal field f = v))).length =
        (files.filter (fun f => decide (fieldVal field f = v))).length :=
      ((List.perm_insertionSort (sortRel field order) files).filter _).length_eq
    exact (h1.eq_of_length h2.symm).symm

/-- Witness for C3 at Example 1's two records and key `size-asc`. -/
theorem sortFiles_perm_sorted_stable_witness :
    ([exFileA, exFileB] : List FileRecord) ≠ [] ∧
    sortOptions "size-asc" = some (.size, .asc) ∧
    ∃ sorted : List FileRecord,
      sortFiles (some [exFileA, exFileB]) "size-asc" = .ok sorted ∧
      sorted.Perm [exFileA, exFileB] ∧
      sorted.Pairwise (sortRel .size .asc) ∧
      (∀ v : Int, sorted.filter (fun f => decide (fieldVal .size f = v)) =
        [exFileA, exFileB].filter (fun f => decide (fieldVal .size f = v))) :=
  ⟨by decide, rfl,
    sortFiles_perm_sorted_stable [exFileA, exFileB] "size-asc" .size .asc
      (by decide) rfl⟩

/-- C8 counterexample: `sortFiles` on an empty list with the unknown key
`bogus` returns the empty result and does not raise the claimed
`InvalidArgument` error — the empty-input rule is checked before the key. -/
theorem sortFiles_empty_unknown_counterexample :
    sortFiles (some []) "bogus" = .ok [] ∧
    ∀ e : String, sortFiles (some []) "bogus" ≠ .error e := by
  refine ⟨rfl, ?_⟩
  intro e h
  rw [show sortFiles (some []) "bogus" = .ok [] from rfl] at h
  exact Except.noConfusion h

/-- C8 (amended): empty or non-sequence input yields the empty result for
every key, unknown keys included (the empty-input rule takes precedence);
the `Invalid sort option` error is raised exactly for a non-empty sequence
with a key outside the four supported ones. -/
theorem sortFiles_empty_and_unknown_key (key : String) :
    sortFiles none key = .ok [] ∧
    sortFiles (some []) key = .ok [] ∧
    (∀ files : List FileRecord, files ≠ [] → sortOptions key = none →
      sortFiles (some files) key = .error ("Invalid sort option: " ++ key)) ∧
    (sortOptions key = none ↔
      key ∉ (["size-asc", "size-desc", "date-asc", "date-desc"] : List String)) := by
  refine ⟨rfl, rfl, ?_, ?_⟩
  · intro files hne hkey
    have h0 : ¬ files.length = 0 := by
      simpa [List.length_eq_zero] using hne
    simp [sortFiles, h0, hkey]
  · constructor
    · intro h hmem
      simp only [List.mem_cons, List.not_mem_nil, or_false] at hmem
      rcases hmem with rfl | rfl | rfl | rfl <;> simp [sortOptions] at h
    · intro hmem
      have h1 : ¬ key = "size-asc" := fun h => hmem (by simp [h])
      have h2 : ¬ key = "size-desc" := fun h => hmem (by simp [h])
      have h3 : ¬ key = "date-asc" := fun h => hmem (by simp [h])
      have h4 : ¬ key = "date-desc" := fun h => hmem (by simp [h])
      simp [sortOptions, h1, h2, h3, h4]

/-- Witness for the amended C8 at key `bogus` and a non-empty list. -/
theorem sortFiles_empty_and_unknown_key_witness :
    sortFiles none "bogus" = .ok [] ∧
    sortFiles (some []) "bogus" = .ok [] ∧
    ([exFileA] : List FileRecord) ≠ [] ∧
    sortOptions "bogus" = none ∧
    sortFiles (some [exFileA]) "bogus" = .error ("Invalid sort option: " ++ "bogus") :=
  ⟨(sortFiles_empty_and_unknown_key "bogus").1,
   (sortFiles_empty_and_unknown_key "bogus").2.1,
   by decide, rfl,
   (sortFiles_empty_and_unknown_key "bogus").2.2.1 [exFileA] (by decide) rfl⟩

/-- C2: on a pattern with exactly one `placeholder` occurrence, the
candidate equals the pattern with the placeholder replaced by the index
rendered in decimal, left-padded with zeros to the padding width (padding 0
adds no zeros), with the (dot-led, per the data-model invariant) extension
appended verbatim exactly when non-empty; and spec Example 1: sorting
`[a.jpg(10), b.png(5)]` by `size-asc` and planning with `file_(placeholder)`,
padding 3, yields `b.png - file_001.png`, `a.jpg - file_002.jpg`. -/
theorem generateNewName_formula_and_example :
    (∀ (p₁ p₂ : String) (index padding : Nat) (ext : String),
      countOcc (p₁ ++ "{number}" ++ p₂) "{number}" = 1 →
      (ext = "" ∨ ∃ r, ext = "." ++ r) →
      generateNewName (p₁ ++ "{number}" ++ p₂) index padding ext =
        p₁ ++ stringPadStart (toString index) padding '0' ++ p₂ ++
          (if ext = "" then "" else ext)) ∧
    (∀ s : String, stringPadStart s 0 '0' = s) ∧
    sortFiles (some [exFileA, exFileB]) "size-asc" = .ok [exFileB, exFileA] ∧
    (generatePreview ⟨[], []⟩ exFolder [exFileB, exFileA] "file_{number}" 3
      true 1).fst.success = true ∧
    ((generatePreview ⟨[], []⟩ exFolder [exFileB, exFileA] "file_{number}" 3
      true 1).fst.previewData.map (fun e => (e.originalName, e.newName))) =
      [("b.png", "file_001.png"), ("a.jpg", "file_002.jpg")] :=
  ⟨fun p₁ p₂ index padding ext hc he =>
      generateNewName_splice p₁ p₂ index padding ext hc he,
   fun s => stringPadStart_zero s '0',
   rfl, by decide, by decide⟩

/-- Witness for C2's formula part at `file_` / `` / index 2 / padding 3 /
extension `.jpg`. -/
theorem generateNewName_formula_witness :
    countOcc ("file_" ++ "{number}" ++ "") "{number}" = 1 ∧
    ((".jpg" : String) = "" ∨ ∃ r, (".jpg" : String) = "." ++ r) ∧
    generateNewName ("file_" ++ "{number}" ++ "") 2 3 ".jpg" =
      "file_" ++ stringPadStart (toString 2) 3 '0' ++ "" ++
        (if (".jpg" : String) = "" then "" else ".jpg") :=
  ⟨by decide, Or.inr ⟨"jpg", rfl⟩,
   generateNewName_formula_and_example.1 "file_" "" 2 3 ".jpg" (by decide)
     (Or.inr ⟨"jpg", rfl⟩)⟩

/-- C1: whenever `generatePreview` succeeds, it produced exactly one entry
per input file and the generated new names are pairwise distinct. -/
theorem generatePreview_length_and_distinct
    (st : RenamerState) (fileExists : String → Except String Bool)
    (files : List FileRecord) (pattern : String) (padding : Nat) (rc : Bool)
    (startIndex : Nat)
    (h : (generatePreview st fileExists files pattern padding rc
      startIndex).fst.success = true) :
    (generatePreview st fileExists files pattern padding rc
      startIndex).fst.previewData.length = files.length ∧
    ((generatePreview st fileExists files pattern padding rc
      startIndex).fst.previewData.map (fun e => e.newName)).Nodup := by
  have hv : (validatePattern pattern).isValid = true := by
    by_contra hv
    rw [generatePreview_fst_invalid st fileExists files pattern padding rc
      startIndex (by simpa using hv)] at h
    simp at h
  rw [generatePreview_fst st fileExists files pattern padding rc startIndex hv] at h ⊢
  obtain ⟨ne, hpd, hlen, hnd, -, -, -, -, -⟩ :=
    previewLoop_success_spec fileExists pattern padding files rc files 0
      ⟨[], [], [], startIndex⟩ h
  rw [hpd]
  exact ⟨by simpa using hlen, by simpa using hnd⟩

/-- Witness for C1 on the successful Example 1 plan. -/
theorem generatePreview_length_and_distinct_witness :
    (generatePreview ⟨[], []⟩ exFolder [exFileB, exFileA] "file_{number}" 3
      true 1).fst.success = true ∧
    ((generatePreview ⟨[], []⟩ exFolder [exFileB, exFileA] "file_{number}" 3
      true 1).fst.previewData.length = 2 ∧
    ((generatePreview ⟨[], []⟩ exFolder [exFileB, exFileA] "file_{number}" 3
      true 1).fst.previewData.map (fun e => e.newName)).Nodup) :=
  ⟨by decide,
   generatePreview_length_and_distinct ⟨[], []⟩ exFolder [exFileB, exFileA]
     "file_{number}" 3 true 1 (by decide)⟩

/-- C6: in a successful plan, actual sequence indices strictly increase
along the entry list (in particular they never decrease, and an index slot
consumed by collision resolution is never reused by a later entry). -/
theorem generatePreview_actualIndex_monotone
    (st : RenamerState) (fileExists : String → Except String Bool)
    (files : List FileRecord) (pattern : String) (padding : Nat) (rc : Bool)
    (startIndex : Nat)
    (h : (generatePreview st fileExists files pattern padding rc
      startIndex).fst.success = true) :
    (generatePreview st fileExists files pattern padding rc
      startIndex).fst.previewData.Pairwise
        (fun a b => a.actualIndex < b.actualIndex) := by
  have hv : (validatePattern pattern).isValid = true := by
    by_contra hv
    rw [generatePreview_fst_invalid st fileExists files pattern padding rc
      startIndex (by simpa using hv)] at h
    simp at h
  rw [generatePreview_fst st fileExists files pattern padding rc startIndex hv] at h ⊢
  obtain ⟨ne, hpd, -, -, -, -, hpair, -, -⟩ :=
    previewLoop_success_spec fileExists pattern padding files rc files 0
      ⟨[], [], [], startIndex⟩ h
  rw [hpd]
  simpa using hpair

/-- Witness for C6 on a plan whose first entry consumed an extra index slot
through collision resolution. -/
theorem generatePreview_actualIndex_monotone_witness :
    (generatePreview ⟨[], []⟩ colFolder [colFileX, colFileY] "f{number}" 0
      true 1).fst.success = true ∧
    (generatePreview ⟨[], []⟩ colFolder [colFileX, colFileY] "f{number}" 0
      true 1).fst.previewData.Pairwise
        (fun a b => a.actualIndex < b.actualIndex) :=
  ⟨by decide,
   generatePreview_actualIndex_monotone ⟨[], []⟩ colFolder
     [colFileX, colFileY] "f{number}" 0 true 1 (by decide)⟩

/-- C7 counterexample: run the planner on two files where the first file's
candidate `f1` collides with the live folder and is resolved to `f2`
(consuming index 2).  The second file's first candidate is then computed at
`currentIndex = 3` and suffers no collision, so its pre-adjustment sequence
index equals its `actualIndex` 3; yet the recorded `originalIndex` is 2, the
file's 1-based list position — not the pre-adjustment `currentIndex` the
claim describes. -/
theorem generatePreview_originalIndex_counterexample :
    (generatePreview ⟨[], []⟩ colFolder [colFileX, colFileY] "f{number}" 0
      true 1).fst.previewData.map
        (fun e => (e.originalIndex, e.actualIndex, e.collisionResolved)) =
      [(1, 2, true), (2, 3, false)] ∧
    (2 : Nat) ≠ 3 :=
  ⟨by decide, by decide⟩

/-- C7 (amended): in a successful plan the `k`-th entry's `originalIndex`
is its 1-based list position `k + 1`, and its `newName` is the candidate
generated at its (post-adjustment) `actualIndex` with its extension. -/
theorem generatePreview_indices
    (st : RenamerState) (fileExists : String → Except String Bool)
    (files : List FileRecord) (pattern : String) (padding : Nat) (rc : Bool)
    (startIndex : Nat)
    (h : (generatePreview st fileExists files pattern padding rc
      startIndex).fst.success = true) :
    ∀ (k : Nat) (e : PreviewEntry),
      (generatePreview st fileExists files pattern padding rc
        startIndex).fst.previewData.get? k = some e →
      e.originalIndex = k + 1 ∧
      e.newName = generateNewName pattern e.actualIndex padding e.extension := by
  have hv : (validatePattern pattern).isValid = true := by
    by_contra hv
    rw [generatePreview_fst_invalid st fileExists files pattern padding rc
      startIndex (by simpa using hv)] at h
    simp at h
  rw [generatePreview_fst st fileExists files pattern padding rc startIndex hv] at h
  obtain ⟨ne, hpd, -, -, -, -, -, horig, hgen⟩ :=
    previewLoop_success_spec fileExists pattern padding files rc files 0
      ⟨[], [], [], startIndex⟩ h
  have hpd' : (previewLoop fileExists pattern padding files rc files 0
      ⟨[], [], [], startIndex⟩).previewData = ne := by
    rw [hpd]
    simp
  intro k e hke
  rw [generatePreview_fst st fileExists files pattern padding rc startIndex hv,
    hpd'] at hke
  have hk : k < ne.length := by
    by_contra hk
    rw [List.get?_eq_none.mpr (by omega)] at hke
    exact Option.noConfusion hke
  have he : ne.get ⟨k, hk⟩ = e := by
    rw [List.get?_eq_get hk] at hke
    injection hke
  constructor
  · rw [← he]
    have := horig k hk
    omega
  · rw [← he]
    exact hgen _ (ne.get_mem _ _)

/-- Witness for the amended C7 at entry position 1 of the collision run. -/
theorem generatePreview_indices_witness :
    (generatePreview ⟨[], []⟩ colFolder [colFileX, colFileY] "f{number}" 0
      true 1).fst.success = true ∧
    (generatePreview ⟨[], []⟩ colFolder [colFileX, colFileY] "f{number}" 0
      true 1).fst.previewData.get? 1 =
      some ⟨"y", "f3", 2, 3, colFileY, false, none, none, ""⟩ ∧
    ((⟨"y", "f3", 2, 3, colFileY, false, none, none, ""⟩ :
        PreviewEntry).originalIndex = 1 + 1 ∧
      (⟨"y", "f3", 2, 3, colFileY, false, none, none, ""⟩ :
        PreviewEntry).newName =
        generateNewName "f{number}"
          ((⟨"y", "f3", 2, 3, colFileY, false, none, none, ""⟩ :
            PreviewEntry).actualIndex) 0
          ((⟨"y", "f3", 2, 3, colFileY, false, none, none, ""⟩ :
            PreviewEntry).extension)) :=
  ⟨by decide, by decide,
   generatePreview_indices ⟨[], []⟩ colFolder [colFileX, colFileY]
     "f{number}" 0 true 1 (by decide) 1
     ⟨"y", "f3", 2, 3, colFileY, false, none, none, ""⟩ (by decide)⟩

/-- File whose generated name `f12` later collides with a resolved name. -/
def dupFileA : FileRecord := ⟨"a", none, none, none, "2", 1⟩

/-- Second file, driven by probing into the duplicate name `f12`. -/
def dupFileB : FileRecord := ⟨"b", none, none, none, "", 2⟩

/-- Probe making `f2`…`f11` exist, so probing for `dupFileB` lands on
`f12`, which duplicates `dupFileA`'s assigned name. -/
def dupFolder : String → Except String Bool :=
  fun s => .ok (decide (s ∈ (["f2", "f3", "f4", "f5", "f6", "f7", "f8", "f9",
    "f10", "f11"] : List String)))

/-- A probe reporting every candidate as already existing. -/
def fullFolder : String → Except String Bool := fun _ => .ok true

/-- C5: the probing loop tries offsets `1, 2, 3, …`, recomputing the
candidate at `currentIndex + offset`; a success reports the first
collision-free offset within the bound, a failure reports exactly
`maxAttempts` attempts (1000 at `generatePreview`'s call site); and when
planning fails after a valid pattern — unresolvable collision or duplicate
generated name — the whole batch fails with a single error message
embedding the offending file's original name, while a successful plan skips
no file. -/
theorem resolveCollision_probe_and_plan_failure :
    (∀ (fileExists : String → Except String Bool) (pattern : String)
        (currentIndex padding : Nat) (extension : String)
        (existingFiles : List FileRecord) (maxAttempts : Nat),
      ((resolveCollision fileExists pattern currentIndex padding extension
          existingFiles maxAttempts).resolved = false →
        (resolveCollision fileExists pattern currentIndex padding extension
          existingFiles maxAttempts).attempts = maxAttempts ∧
        (resolveCollision fileExists pattern currentIndex padding extension
          existingFiles maxAttempts).newName = none) ∧
      ((resolveCollision fileExists pattern currentIndex padding extension
          existingFiles maxAttempts).resolved = true →
        1 ≤ (resolveCollision fileExists pattern currentIndex padding extension
          existingFiles maxAttempts).attempts ∧
        (resolveCollision fileExists pattern currentIndex padding extension
          existingFiles maxAttempts).attempts ≤ maxAttempts ∧
        (resolveCollision fileExists pattern currentIndex padding extension
          existingFiles maxAttempts).newIndex =
          some (currentIndex + (resolveCollision fileExists pattern currentIndex
            padding extension existingFiles maxAttempts).attempts) ∧
        (resolveCollision fileExists pattern currentIndex padding extension
          existingFiles maxAttempts).newName =
          some (generateNewName pattern (currentIndex + (resolveCollision
            fileExists pattern currentIndex padding extension existingFiles
            maxAttempts).attempts) padding extension) ∧
        hasCollisions fileExists (generateNewName pattern (currentIndex +
          (resolveCollision fileExists pattern currentIndex padding extension
            existingFiles maxAttempts).attempts) padding extension)
          existingFiles = false ∧
        (∀ j, 1 ≤ j →
          j < (resolveCollision fileExists pattern currentIndex padding
            extension existingFiles maxAttempts).attempts →
          hasCollisions fileExists (generateNewName pattern (currentIndex + j)
            padding extension) existingFiles = true))) ∧
    (∀ (fileExists : String → Except String Bool) (pattern : String)
        (currentIndex padding : Nat) (extension : String)
        (existingFiles : List FileRecord),
      (resolveCollision fileExists pattern currentIndex padding extension
        existingFiles 1000).attempts ≤ 1000) ∧
    (∀ (st : RenamerState) (fileExists : String → Except String Bool)
        (files : List FileRecord) (pattern : String) (padding : Nat)
        (rc : Bool) (startIndex : Nat),
      (validatePattern pattern).isValid = true →
      (generatePreview st fileExists files pattern padding rc
        startIndex).fst.success = false →
      ∃ f ∈ files, ∃ s₁ s₂,
        (generatePreview st fileExists files pattern padding rc
          startIndex).fst.errors = [s₁ ++ f.name ++ s₂]) ∧
    (∀ (st : RenamerState) (fileExists : String → Except String Bool)
        (files : List FileRecord) (pattern : String) (padding : Nat)
        (rc : Bool) (startIndex : Nat),
      (generatePreview st fileExists files pattern padding rc
        startIndex).fst.success = true →
      (generatePreview st fileExists files pattern padding rc
        startIndex).fst.previewData.length = files.length) := by
  refine ⟨?_, ?_, ?_, ?_⟩
  · intro fileExists pattern currentIndex padding extension existingFiles
      maxAttempts
    constructor
    · intro hres
      obtain ⟨h1, h2, -⟩ := resolveCollision_unresolved fileExists pattern
        currentIndex padding extension existingFiles maxAttempts hres
      exact ⟨h1, h2⟩
    · intro hres
      exact resolveCollision_resolved fileExists pattern currentIndex padding
        extension existingFiles maxAttempts hres
  · intro fileExists pattern currentIndex padding extension existingFiles
    by_cases hres : (resolveCollision fileExists pattern currentIndex padding
        extension existingFiles 1000).resolved = true
    · exact (resolveCollision_resolved fileExists pattern currentIndex padding
        extension existingFiles 1000 hres).2.1
    · simp only [Bool.not_eq_true] at hres
      exact Nat.le_of_eq (resolveCollision_unresolved fileExists pattern
        currentIndex padding extension existingFiles 1000 hres).1
  · intro st fileExists files pattern padding rc startIndex hv hf
    rw [generatePreview_fst st fileExists files pattern padding rc startIndex
      hv] at hf ⊢
    exact previewLoop_failure_spec fileExists pattern padding files rc files 0
      ⟨[], [], [], startIndex⟩ hf
  · intro st fileExists files pattern padding rc startIndex h
    have hv : (validatePattern pattern).isValid = true := by
      by_contra hv
      rw [generatePreview_fst_invalid st fileExists files pattern padding rc
        startIndex (by simpa using hv)] at h
      simp at h
    rw [generatePreview_fst st fileExists files pattern padding rc startIndex
      hv] at h ⊢
    obtain ⟨ne, hpd, hlen, -, -, -, -, -, -⟩ :=
      previewLoop_success_spec fileExists pattern padding files rc files 0
        ⟨[], [], [], startIndex⟩ h
    rw [hpd]
    simpa using hlen

/-- Witness for C5: a bounded-probe failure (bound 2, everything exists), a
successful probe, a duplicate-name batch failure whose message embeds the
offending file's name, and a skip-free successful plan. -/
theorem resolveCollision_probe_and_plan_failure_witness :
    ((resolveCollision fullFolder "f{number}" 1 0 "" [] 2).resolved = false ∧
     (resolveCollision fullFolder "f{number}" 1 0 "" [] 2).attempts = 2 ∧
     (resolveCollision fullFolder "f{number}" 1 0 "" [] 2).newName = none) ∧
    ((resolveCollision colFolder "f{number}" 1 0 "" [colFileX, colFileY]
        1000).resolved = true ∧
     1 ≤ (resolveCollision colFolder "f{number}" 1 0 "" [colFileX, colFileY]
        1000).attempts) ∧
    ((validatePattern "f{number}").isValid = true ∧
     (generatePreview ⟨[], []⟩ dupFolder [dupFileA, dupFileB] "f{number}" 0
        true 1).fst.success = false ∧
     ∃ f ∈ [dupFileA, dupFileB], ∃ s₁ s₂,
       (generatePreview ⟨[], []⟩ dupFolder [dupFileA, dupFileB] "f{number}" 0
          true 1).fst.errors = [s₁ ++ f.name ++ s₂]) ∧
    ((generatePreview ⟨[], []⟩ exFolder [exFileB, exFileA] "file_{number}" 3
        true 1).fst.success = true ∧
     (generatePreview ⟨[], []⟩ exFolder [exFileB, exFileA] "file_{number}" 3
        true 1).fst.previewData.length = [exFileB, exFileA].length) :=
  ⟨⟨by decide,
    (resolveCollision_probe_and_plan_failure.1 fullFolder "f{number}" 1 0 ""
      [] 2).1 (by decide) |>.1,
    (resolveCollision_probe_and_plan_failure.1 fullFolder "f{number}" 1 0 ""
      [] 2).1 (by decide) |>.2⟩,
   ⟨by decide,
    (resolveCollision_probe_and_plan_failure.1 colFolder "f{number}" 1 0 ""
      [colFileX, colFileY] 1000).2 (by decide) |>.1⟩,
   ⟨by decide, by decide,
    resolveCollision_probe_and_plan_failure.2.2.1 ⟨[], []⟩ dupFolder
      [dupFileA, dupFileB] "f{number}" 0 true 1 (by decide) (by decide)⟩,
   ⟨by decide,
    resolveCollision_probe_and_plan_failure.2.2.2 ⟨[], []⟩ exFolder
      [exFileB, exFileA] "file_{number}" 3 true 1 (by decide)⟩⟩

/-- Entry 1 of spec Example 5 (handle 1). -/
def exEntry1 : PreviewEntry :=
  ⟨"a", "n1", 1, 1, ⟨"a", none, none, none, "", 1⟩, false, none, none, ""⟩

/-- Entry 2 of spec Example 5 (handle 2, whose rename fails `Locked`). -/
def exEntry2 : PreviewEntry :=
  ⟨"b", "n2", 2, 2, ⟨"b", none, none, none, "", 2⟩, false, none, none, ""⟩

/-- Entry 3 of spec Example 5 (handle 3). -/
def exEntry3 : PreviewEntry :=
  ⟨"c", "n3", 3, 3, ⟨"c", none, none, none, "", 3⟩, false, none, none, ""⟩

/-- A rename primitive that fails with the host's `Locked` message exactly
for handle 2. -/
def lockedPrim : RenamePrim :=
  fun h _ => if h = 2 then .error "File is locked or cannot be modified"
    else .ok true

/-- C4: `executeRenaming` partitions the entries into ordered `successful`
and `failed` subsequences covering every entry (`totalFiles` is the input
length); a rename-primitive failure lands that entry in `failed` with the
captured message while the batch continues; and in spec Example 5 —
3 entries, entry 2 failing `Locked` — entries 1 and 3 succeed, entry 2
fails and `totalFiles = 3`. -/
theorem executeRenaming_partial_failure :
    (∀ (st : RenamerState) (renamePrim : RenamePrim)
        (cb : Option ProgressCallback) (entries : List PreviewEntry),
      (executeRenaming st renamePrim cb entries).fst.totalFiles =
        entries.length ∧
      (executeRenaming st renamePrim cb entries).fst.successful.length +
        (executeRenaming st renamePrim cb entries).fst.failed.length =
        entries.length ∧
      List.Sublist ((executeRenaming st renamePrim cb
          entries).fst.successful.map (fun e => e.originalName))
        (entries.map (fun e => e.originalName)) ∧
      List.Sublist ((executeRenaming st renamePrim cb
          entries).fst.failed.map (fun e => e.originalName))
        (entries.map (fun e => e.originalName))) ∧
    (∀ (st : RenamerState) (renamePrim : RenamePrim)
        (entries : List PreviewEntry) (k : Nat) (hk : k < entries.length)
        (msg : String),
      renamePrim ((entries.get ⟨k, hk⟩).file.handle)
        ((entries.get ⟨k, hk⟩).newName) = .error msg →
      (⟨(entries.get ⟨k, hk⟩).originalName, (entries.get ⟨k, hk⟩).newName,
        (entries.get ⟨k, hk⟩).file, msg⟩ : FailedEntry) ∈
        (executeRenaming st renamePrim none entries).fst.failed) ∧
    ((executeRenaming ⟨[], []⟩ lockedPrim none
        [exEntry1, exEntry2, exEntry3]).fst.successful.map
          (fun e => e.originalName) = ["a", "c"] ∧
     (executeRenaming ⟨[], []⟩ lockedPrim none
        [exEntry1, exEntry2, exEntry3]).fst.failed.map
          (fun e => (e.originalName, e.errMsg)) =
        [("b", "File is locked or cannot be modified")] ∧
     (executeRenaming ⟨[], []⟩ lockedPrim none
        [exEntry1, exEntry2, exEntry3]).fst.totalFiles = 3) := by
  refine ⟨?_, ?_, by decide, by decide, by decide⟩
  · intro st renamePrim cb entries
    obtain ⟨ns, nf, nl, h1, h2, h3, h4, h5, h6, h7⟩ :=
      execLoop_spec renamePrim cb entries.length entries 0 [] [] []
    simp only [executeRenaming]
    refine ⟨trivial, ?_, ?_, ?_⟩
    · rw [h1, h2] at *
      simpa using h4
    · rw [h1]
      simpa using h5
    · rw [h2]
      simpa using h6
  · intro st renamePrim entries k hk msg hm
    have hatt : execAttempt renamePrim none entries.length (0 + k)
        (entries.get ⟨k, hk⟩) = .error msg := by
      simp only [List.get_eq_getElem] at hm
      simp [execAttempt, hm]
    simpa [executeRenaming] using
      execLoop_mem_failed renamePrim none entries.length entries 0 [] [] []
        k hk msg hatt

/-- Witness for C4: entry 2's primitive failure lands in `failed` with the
captured `Locked` message. -/
theorem executeRenaming_partial_failure_witness :
    (1 < ([exEntry1, exEntry2, exEntry3] : List PreviewEntry).length) ∧
    lockedPrim exEntry2.file.handle exEntry2.newName =
      .error "File is locked or cannot be modified" ∧
    (⟨"b", "n2", ⟨"b", none, none, none, "", 2⟩,
      "File is locked or cannot be modified"⟩ : FailedEntry) ∈
      (executeRenaming ⟨[], []⟩ lockedPrim none
        [exEntry1, exEntry2, exEntry3]).fst.failed :=
  ⟨by decide, rfl,
   executeRenaming_partial_failure.2.1 ⟨[], []⟩ lockedPrim
     [exEntry1, exEntry2, exEntry3] 1 (by decide)
     "File is locked or cannot be modified" rfl⟩

/-- C10: a throwing progress callback isolates its entry — the batch result
never consults the rename primitive for entries whose notification throws
(two primitives agreeing on the notified entries give identical results),
the entry is recorded in `failed` carrying the callback's error message, and
the batch still accounts for every entry. -/
theorem executeRenaming_callback_throw :
    (∀ (st : RenamerState) (entries : List PreviewEntry)
        (cb : ProgressCallback) (prim₁ prim₂ : RenamePrim),
      (∀ (k : Nat) (hk : k < entries.length),
        cb (k + 1) entries.length ((entries.get ⟨k, hk⟩).originalName)
          ((entries.get ⟨k, hk⟩).newName) = .ok () →
        prim₁ ((entries.get ⟨k, hk⟩).file.handle)
          ((entries.get ⟨k, hk⟩).newName) =
          prim₂ ((entries.get ⟨k, hk⟩).file.handle)
            ((entries.get ⟨k, hk⟩).newName)) →
      executeRenaming st prim₁ (some cb) entries =
        executeRenaming st prim₂ (some cb) entries) ∧
    (∀ (st : RenamerState) (entries : List PreviewEntry)
        (cb : ProgressCallback) (renamePrim : RenamePrim) (k : Nat)
        (hk : k < entries.length) (msg : String),
      cb (k + 1) entries.length ((entries.get ⟨k, hk⟩).originalName)
        ((entries.get ⟨k, hk⟩).newName) = .error msg →
      (⟨(entries.get ⟨k, hk⟩).originalName, (entries.get ⟨k, hk⟩).newName,
        (entries.get ⟨k, hk⟩).file, msg⟩ : FailedEntry) ∈
        (executeRenaming st renamePrim (some cb) entries).fst.failed) ∧
    (∀ (st : RenamerState) (entries : List PreviewEntry)
        (cb : ProgressCallback) (renamePrim : RenamePrim),
      (executeRenaming st renamePrim (some cb) entries).fst.successful.length +
        (executeRenaming st renamePrim (some cb) entries).fst.failed.length =
        entries.length) := by
  refine ⟨?_, ?_, ?_⟩
  · intro st entries cb prim₁ prim₂ hagree
    have hloop := execLoop_cb_agree cb entries.length entries 0 [] [] []
      prim₁ prim₂ (by
        intro k hk hcb
        apply hagree k hk
        rw [show 0 + k + 1 = k + 1 by omega] at hcb
        exact hcb)
    simp only [executeRenaming, hloop]
  · intro st entries cb renamePrim k hk msg hcb
    have hatt : execAttempt renamePrim (some cb) entries.length (0 + k)
        (entries.get ⟨k, hk⟩) = .error msg := by
      rw [show 0 + k = k by omega]
      simp only [execAttempt, hcb]
    simpa [executeRenaming] using
      execLoop_mem_failed renamePrim (some cb) entries.length entries 0 [] []
        [] k hk msg hatt
  · intro st entries cb renamePrim
    obtain ⟨ns, nf, nl, h1, h2, -, h4, -, -, -⟩ :=
      execLoop_spec renamePrim (some cb) entries.length entries 0 [] [] []
    simp only [executeRenaming]
    rw [h1, h2]
    simpa using h4

/-- A progress callback that always throws. -/
def throwCb : ProgressCallback := fun _ _ _ _ => .error "callback boom"

/-- A rename primitive that always succeeds. -/
def okPrim : RenamePrim := fun _ _ => .ok true

/-- A rename primitive that always fails. -/
def badPrim : RenamePrim := fun _ _ => .error "other"

/-- Witness for C10 on a 1-entry batch whose notification throws: the result
ignores the primitive entirely and the entry fails with the callback's
message. -/
theorem executeRenaming_callback_throw_witness :
    (∀ (k : Nat) (hk : k < ([exEntry1] : List PreviewEntry).length),
      throwCb (k + 1) 1 (([exEntry1].get ⟨k, hk⟩).originalName)
        (([exEntry1].get ⟨k, hk⟩).newName) = .ok () →
      okPrim (([exEntry1].get ⟨k, hk⟩).file.handle)
        (([exEntry1].get ⟨k, hk⟩).newName) =
        badPrim (([exEntry1].get ⟨k, hk⟩).file.handle)
          (([exEntry1].get ⟨k, hk⟩).newName)) ∧
    executeRenaming ⟨[], []⟩ okPrim (some throwCb) [exEntry1] =
      executeRenaming ⟨[], []⟩ badPrim (some throwCb) [exEntry1] ∧
    throwCb (0 + 1) 1 exEntry1.originalName exEntry1.newName =
      .error "callback boom" ∧
    (⟨"a", "n1", ⟨"a", none, none, none, "", 1⟩, "callback boom"⟩ :
      FailedEntry) ∈
      (executeRenaming ⟨[], []⟩ okPrim (some throwCb) [exEntry1]).fst.failed ∧
    (executeRenaming ⟨[], []⟩ okPrim (some throwCb)
        [exEntry1]).fst.successful.length +
      (executeRenaming ⟨[], []⟩ okPrim (some throwCb)
        [exEntry1]).fst.failed.length = 1 :=
  ⟨fun k hk hcb => Except.noConfusion hcb,
   executeRenaming_callback_throw.1 ⟨[], []⟩ [exEntry1] throwCb okPrim badPrim
     (fun k hk hcb => Except.noConfusion hcb),
   rfl,
   executeRenaming_callback_throw.2.1 ⟨[], []⟩ [exEntry1] throwCb okPrim 0
     (by decide) "callback boom" rfl,
   executeRenaming_callback_throw.2.2 ⟨[], []⟩ [exEntry1] throwCb okPrim⟩

/-- C9 counterexample: invoking `executeRenaming` on an empty plan wipes a
previously non-empty operation log — the log is cleared implicitly at the
start of every execution, not only by the explicit `clearLogs`. -/
theorem operationLog_implicit_clear_counterexample :
    ((⟨[⟨"rename", "old", "new", "success", none⟩], []⟩ :
      RenamerState).operationLog ≠ []) ∧
    (executeRenaming ⟨[⟨"rename", "old", "new", "success", none⟩], []⟩ okPrim
      none []).snd.operationLog = [] :=
  ⟨by decide, rfl⟩

/-- C9 (amended): within one run the log is append-only with exactly one
entry per attempted rename, in order; `generatePreview` never touches the
log; `clearLogs` empties it explicitly; but `executeRenaming` also resets
it implicitly on entry, so the final log holds exactly the current run's
entries. -/
theorem operationLog_per_attempt_and_clear :
    (∀ (st : RenamerState) (renamePrim : RenamePrim)
        (cb : Option ProgressCallback) (entries : List PreviewEntry),
      ((executeRenaming st renamePrim cb entries).snd.operationLog.map
        (fun e => e.originalName)) = entries.map (fun e => e.originalName) ∧
      (executeRenaming st renamePrim cb entries).snd.operationLog.length =
        entries.length) ∧
    (∀ (st : RenamerState) (fileExists : String → Except String Bool)
        (files : List FileRecord) (pattern : String) (padding : Nat)
        (rc : Bool) (startIndex : Nat),
      (generatePreview st fileExists files pattern padding rc
        startIndex).snd.operationLog = st.operationLog) ∧
    (∀ st : RenamerState,
      (clearLogs st).operationLog = [] ∧
      (clearLogs st).collisionResolutions = []) := by
  refine ⟨?_, ?_, fun st => ⟨rfl, rfl⟩⟩
  · intro st renamePrim cb entries
    obtain ⟨ns, nf, nl, -, -, h3, -, -, -, h7⟩ :=
      execLoop_spec renamePrim cb entries.length entries 0 [] [] []
    simp only [executeRenaming]
    rw [h3]
    simp only [List.nil_append]
    refine ⟨h7, ?_⟩
    have := congrArg List.length h7
    simpa using this
  · intro st fileExists files pattern padding rc startIndex
    simp only [generatePreview]
    split
    · split <;> rfl
    · rfl
